import Mathlib

/-!
# OSTEP intro exercises: `cpu2.c` (argument echo loop) and `io2.c` (file writer)

A shallow embedding of the two `main` routines under `Notes/Code/01.Intro`,
followed by the properties established about them.

Conventions shared by both programs.
* The argument vector is a `List String`; `argc` is its length.  A C `int`
  holding `argc` or a loop index stays within `0 .. argc`, so no wrap-around
  can occur and the values are carried as `Nat`/`Int` directly.
* Everything a program does to the outside world is recorded, in program
  order, in a trace of events.
-/

namespace Cpu2

/-! ## `cpu2.c` -/

/-- Observable actions of `cpu2.c`, one per library call. -/
inductive Event where
  /-- One `printf` call; the payload is the text it formats. -/
  | stdout (text : String)
  /-- One `fprintf(stderr, ...)` call. -/
  | stderr (text : String)
  /-- One call `Spin(howlong)` that has returned. -/
  | spin (howlong : Int)
  deriving DecidableEq

/-- Where control is between two steps of `main`. -/
inductive Pc where
  /-- At the head of `while( 1 )`. -/
  | loopHead
  /-- The process has terminated with the given exit status. -/
  | exited (status : Int)
  deriving DecidableEq

/-- Process state: the events so far and the control point. -/
structure State where
  trace : List Event
  pc : Pc
  deriving DecidableEq

/-- Text that reached standard output, in order. -/
def stdoutText : List Event → String
  | [] => ""
  | Event.stdout s :: es => s ++ stdoutText es
  | _ :: es => stdoutText es

/-- Text that reached standard error, in order. -/
def stderrText : List Event → String
  | [] => ""
  | Event.stderr s :: es => s ++ stderrText es
  | _ :: es => stderrText es

/-- Arguments of the `Spin` calls made, in order. -/
def spinCalls : List Event → List Int
  | [] => []
  | Event.spin n :: es => n :: spinCalls es
  | _ :: es => spinCalls es

/-- The string `argv[i]` handed to `printf("%s", ...)`.  Inside the loop
`1 ≤ i < argc`, so the slot always holds a string. -/
def argvAt (argv : List String) (i : Nat) : String :=
  argv.getD i ""

/-- Lines 17-29: `for( int i = 1; i < argc; ++i )`, entered with the index at
`i` and the events so far in `tr`. -/
def forLoop (argc : Nat) (argv : List String) (i : Nat) (tr : List Event) : List Event :=
  if i < argc then
    let tr := tr ++ [Event.stdout (argvAt argv i)]
    let tr :=
      if (i : Int) < (argc : Int) - 1 then tr ++ [Event.stdout " "]
      else tr ++ [Event.stdout "\n"]
    forLoop argc argv (i + 1) tr
  else tr
termination_by argc - i

/-- Modelled from the spec: `Spin` comes from `common.h`, which is not part of
the sources at hand.  Given a duration in seconds it suspends the caller for
about that long and returns; the call is recorded with its argument. -/
def Spin (howlong : Int) (tr : List Event) : List Event :=
  tr ++ [Event.spin howlong]

/-- Lines 16-30: the body of the `while` loop. -/
def loopBody (argv : List String) (s : State) : State :=
  { trace := Spin 1 (forLoop argv.length argv 1 s.trace), pc := Pc.loopHead }

/-- Lines 15-32: one evaluation of the loop condition `1`; when it is non-zero
the body runs and control returns to the loop head, otherwise `return 0`. -/
def whileStep (argv : List String) (s : State) : State :=
  if (1 : Int) ≠ 0 then loopBody argv s
  else { s with pc := Pc.exited 0 }

/-- Lines 9-13: the argument check. -/
def start (argv : List String) : State :=
  if argv.length < 2 then
    { trace := [Event.stderr "usage: cpu <string>\n"], pc := Pc.exited 1 }
  else
    { trace := [], pc := Pc.loopHead }

/-- One step of the process: a terminated process stays as it is. -/
def step (argv : List String) (s : State) : State :=
  match s.pc with
  | Pc.exited _ => s
  | Pc.loopHead => whileStep argv s

/-- State of `main` after the argument check and `k` further steps. -/
def main (argv : List String) : Nat → State
  | 0 => start argv
  | k + 1 => step argv (main argv k)

/-- Events of one pass of the `for` loop over `argv`, from a fresh trace. -/
def onePass (argv : List String) : List Event :=
  forLoop argv.length argv 1 []

/-! ### Auxiliary definitions used to state and prove the properties -/

/-- Separator-prefixed concatenation: `sep ++ a₁ ++ sep ++ a₂ ++ ...`. -/
def sepCat (sep : String) : List String → String
  | [] => ""
  | a :: as => sep ++ a ++ sepCat sep as

/-- The chunks one pass hands to `printf` for the tokens still to be printed. -/
def chunks (rest : List String) : List String :=
  rest.intersperse " " ++ (if rest = [] then [] else ["\n"])

end Cpu2

namespace Io2

/-! ## `io2.c`

The program talks to the operating system through `open`, `write`, `fsync`
and `close`.  Those calls are modelled after POSIX for regular files reached
by path, in a single process: a file system maps a path to the bytes and
permission bits of the file there, a descriptor table maps a descriptor to an
open file description, and the decisions that belong to the operating system
alone (whether `open` is granted, how many bytes `write` accepts, what
`fsync` and `close` report) are supplied per run by a `Kernel` value.
`assert` is live: the translation unit does not define `NDEBUG`. -/

/-- A regular file: its bytes and its permission bits. -/
structure File where
  data : List Char
  mode : Nat
  deriving DecidableEq

/-- An open file description. -/
structure OpenFile where
  path : String
  offset : Nat
  writable : Bool
  append : Bool
  deriving DecidableEq

/-- A system call that was made, with its arguments and the value returned. -/
inductive Syscall where
  | open (path : String) (flags mode : Nat) (ret : Int)
  | write (fd : Int) (buf : List Char) (count : Nat) (ret : Int)
  | fsync (fd : Int) (ret : Int)
  | close (fd : Int) (ret : Int)
  deriving DecidableEq

/-- What the process can see and change. -/
structure World where
  /-- The file, if any, at each path. -/
  fs : String → Option File
  /-- File mode creation mask of the process. -/
  umask : Nat
  /-- Descriptor table of the process. -/
  fds : Int → Option OpenFile
  /-- Text written to standard output. -/
  stdout : String
  /-- System calls made so far, oldest first. -/
  calls : List Syscall

/-- Decisions of the operating system during one run. -/
structure Kernel where
  /-- Descriptor handed out by `open`, or `none` when the request is refused. -/
  openGrant : Option Nat
  /-- Number of bytes `write` is ready to take, or `none` when it fails. -/
  writeAccept : Option Nat
  /-- Value reported by `fsync` on an open descriptor (0, or -1 on failure). -/
  fsyncRet : Int
  /-- Value reported by `close` on an open descriptor (0, or -1 on failure). -/
  closeRet : Int
  deriving DecidableEq

/-- How the process ended. -/
inductive Outcome where
  /-- Call of `exit(status)` or `return status` from `main`. -/
  | exit (status : Int)
  /-- Failed `assert`: the process is aborted. -/
  | abort
  /-- `printf("%s", ...)` was handed the null pointer `argv[argc]`. -/
  | undefined
  deriving DecidableEq

/-- Result of running `main`: how it ended, the values the locals `fd` and
`rc` received (if control got that far), and the world it left. -/
structure Run where
  outcome : Outcome
  fd : Option Int
  rc : Option Int
  world : World

/-! Constants of `<fcntl.h>` and `<sys/stat.h>` (Linux values). -/

def O_ACCMODE : Nat := 0o3
def O_WRONLY : Nat := 0o1
def O_RDWR : Nat := 0o2
def O_CREAT : Nat := 0o100
def O_EXCL : Nat := 0o200
def O_TRUNC : Nat := 0o1000
def O_APPEND : Nat := 0o2000
def S_IRUSR : Nat := 0o400
def S_IWUSR : Nat := 0o200

/-- Bits of `m` that are not set in `mask`, i.e. `m & ~mask`. -/
def clearBits (m mask : Nat) : Nat :=
  m ^^^ (m &&& mask)

/-- Replace the value of a function at one point. -/
def update {α β : Type} [DecidableEq α] (f : α → β) (a : α) (b : β) : α → β :=
  fun x => if x = a then b else f x

/-- Bytes of a file after `bytes` are stored at offset `off`; a gap beyond the
old end of file reads as zero bytes. -/
def writeAt (data : List Char) (off : Nat) (bytes : List Char) : List Char :=
  data.take off ++ List.replicate (off - data.length) (Char.ofNat 0) ++ bytes
    ++ data.drop (off + bytes.length)

/-- POSIX `open(path, flags, mode)`.  When the request is granted: a missing
file is created empty with permission bits `mode & ~umask` if `O_CREAT` is set
(and the call fails otherwise); an existing file keeps its permission bits,
makes the call fail under `O_CREAT | O_EXCL`, and is cut to length zero if
`O_TRUNC` is set and the access mode allows writing.  The new description
starts at offset 0.  Returns the descriptor, or -1 with nothing changed. -/
def sysOpen (w : World) (path : String) (flags mode : Nat) (grant : Option Nat) :
    Int × World :=
  let writable : Bool :=
    flags &&& O_ACCMODE = O_WRONLY || flags &&& O_ACCMODE = O_RDWR
  let opened : Option (Nat × File) :=
    match grant, w.fs path with
    | none, _ => none
    | some fd, none =>
      if flags &&& O_CREAT ≠ 0 then
        some (fd, { data := [], mode := clearBits (mode &&& 0o7777) w.umask })
      else none
    | some fd, some f =>
      if flags &&& O_CREAT ≠ 0 ∧ flags &&& O_EXCL ≠ 0 then none
      else if flags &&& O_TRUNC ≠ 0 ∧ writable = true then some (fd, { f with data := [] })
      else some (fd, f)
  match opened with
  | none => (-1, { w with calls := w.calls ++ [Syscall.open path flags mode (-1)] })
  | some (fd, f) =>
    ((fd : Int),
      { w with
        fs := update w.fs path (some f)
        fds := update w.fds (fd : Int)
          (some { path := path, offset := 0, writable := writable,
                  append := flags &&& O_APPEND ≠ 0 })
        calls := w.calls ++ [Syscall.open path flags mode (fd : Int)] })

/-- POSIX `write(fd, buf, count)`.  On a descriptor open for writing, when the
kernel takes `k` bytes, the first `min k count` bytes of `buf` are stored at
the current offset (at end of file under `O_APPEND`), the offset advances and
that number is returned; in every other case -1 is returned and no file
changes. -/
def sysWrite (w : World) (fd : Int) (buf : List Char) (count : Nat)
    (accept : Option Nat) : Int × World :=
  let done : Option (Nat × OpenFile × File) :=
    match w.fds fd, accept with
    | some d, some k =>
      if d.writable = true then
        match w.fs d.path with
        | some f =>
          let n := min k count
          let off := if d.append = true then f.data.length else d.offset
          some (n, { d with offset := off + n },
                   { f with data := writeAt f.data off (buf.take n) })
        | none => none
      else none
    | _, _ => none
  match done with
  | none => (-1, { w with calls := w.calls ++ [Syscall.write fd buf count (-1)] })
  | some (n, d, f) =>
    ((n : Int),
      { w with
        fs := update w.fs d.path (some f)
        fds := update w.fds fd (some d)
        calls := w.calls ++ [Syscall.write fd buf count (n : Int)] })

/-- POSIX `fsync(fd)`: -1 on a descriptor that is not open, otherwise what the
kernel reports.  File contents and permission bits are not affected. -/
def sysFsync (w : World) (fd : Int) (ret : Int) : Int × World :=
  let r : Int := if (w.fds fd).isSome then ret else -1
  (r, { w with calls := w.calls ++ [Syscall.fsync fd r] })

/-- POSIX `close(fd)`: -1 on a descriptor that is not open, otherwise the
descriptor is released and the kernel's report is returned. -/
def sysClose (w : World) (fd : Int) (ret : Int) : Int × World :=
  let r : Int := if (w.fds fd).isSome then ret else -1
  (r, { w with fds := update w.fds fd none, calls := w.calls ++ [Syscall.close fd r] })

/-- Contents of `char buffer[20]` after `sprintf(buffer, fmt)` for a format
without conversions: the characters of `fmt`, followed by the terminator.
Twelve characters and the terminator fit in the twenty bytes. -/
def sprintf (fmt : String) : List Char :=
  fmt.data

/-- Number of characters before the terminator, as in `strlen`. -/
def strlen (buffer : List Char) : Nat :=
  buffer.length

/-- The routine `main` of `io2.c`, lines 12-29. -/
def main (argv : List String) (k : Kernel) (w : World) : Run :=
  if argv.length < 2 then
    match argv[0]? with
    | some prog =>
      { outcome := Outcome.exit 1, fd := none, rc := none,
        world := { w with stdout := w.stdout ++ (prog ++ " [filename]\n") } }
    | none => { outcome := Outcome.undefined, fd := none, rc := none, world := w }
  else
    let r₁ := sysOpen w (argv.getD 1 "") (O_WRONLY ||| O_CREAT ||| O_TRUNC)
      (S_IRUSR ||| S_IWUSR) k.openGrant
    let fd := r₁.1
    if ¬ (fd ≥ 0) then
      { outcome := Outcome.abort, fd := some fd, rc := none, world := r₁.2 }
    else
      let buffer := sprintf "hello world\n"
      let r₂ := sysWrite r₁.2 fd buffer (strlen buffer) k.writeAccept
      let rc := r₂.1
      if ¬ (rc = (strlen buffer : Int)) then
        { outcome := Outcome.abort, fd := some fd, rc := some rc, world := r₂.2 }
      else
        let r₃ := sysFsync r₂.2 fd k.fsyncRet
        let r₄ := sysClose r₃.2 fd k.closeRet
        { outcome := Outcome.exit 0, fd := some fd, rc := some rc, world := r₄.2 }

/-! ### Auxiliary definitions used to state and prove the properties -/

/-- The file at `path` right after a granted `open` with the flags and mode of
`io2.c`: empty, with the permission bits of the file that was there, or, for
a new file, the requested owner bits less the bits of the creation mask. -/
def openedFile (w : World) (path : String) : File :=
  match w.fs path with
  | some f => { f with data := [] }
  | none => { data := [], mode := clearBits (S_IRUSR ||| S_IWUSR) w.umask }

/-- The world right after a granted `open` of `path` on descriptor `fd`. -/
def openedWorld (w : World) (path : String) (fd : Nat) : World :=
  { w with
    fs := update w.fs path (some (openedFile w path))
    fds := update w.fds (fd : Int)
      (some { path := path, offset := 0, writable := true, append := false })
    calls := w.calls ++
      [Syscall.open path (O_WRONLY ||| O_CREAT ||| O_TRUNC) (S_IRUSR ||| S_IWUSR) (fd : Int)] }

/-- The world after a `write` on the freshly opened descriptor stored `n`
bytes of `buf`. -/
def writtenWorld (w : World) (path : String) (fd : Nat) (buf : List Char)
    (count n : Nat) : World :=
  { w with
    fs := update w.fs path (some { openedFile w path with data := buf.take n })
    fds := update w.fds (fd : Int)
      (some { path := path, offset := n, writable := true, append := false })
    calls := w.calls ++
      [Syscall.open path (O_WRONLY ||| O_CREAT ||| O_TRUNC) (S_IRUSR ||| S_IWUSR) (fd : Int),
       Syscall.write (fd : Int) buf count (n : Int)] }

/-- The world a successful run leaves behind. -/
def finalWorld (w : World) (path : String) (fd : Nat) (k : Kernel) : World :=
  { w with
    fs := update w.fs path (some { openedFile w path with data := "hello world\n".data })
    fds := update w.fds (fd : Int) none
    calls := w.calls ++
      [Syscall.open path (O_WRONLY ||| O_CREAT ||| O_TRUNC) (S_IRUSR ||| S_IWUSR) (fd : Int),
       Syscall.write (fd : Int) "hello world\n".data 12 12,
       Syscall.fsync (fd : Int) k.fsyncRet,
       Syscall.close (fd : Int) k.closeRet] }

/-- The call of `open` on line 20 as a run from `w` under `k` makes it: the
value returned and the world it leaves. -/
def openCall (argv : List String) (k : Kernel) (w : World) : Int × World :=
  sysOpen w (argv.getD 1 "") (O_WRONLY ||| O_CREAT ||| O_TRUNC) (S_IRUSR ||| S_IWUSR)
    k.openGrant

/-- The call of `write` on line 24 as a run from `w` under `k` makes it, on the
descriptor and in the world the `open` of line 20 produced. -/
def writeCall (argv : List String) (k : Kernel) (w : World) : Int × World :=
  sysWrite (openCall argv k w).2 (openCall argv k w).1 (sprintf "hello world\n")
    (strlen (sprintf "hello world\n")) k.writeAccept

/-- A world in which `notes.txt` exists, world-readable, with old data. -/
def sampleWorld : World :=
  { fs := fun p =>
      if p = "notes.txt" then
        some { data := "old data, longer than the greeting".data, mode := 0o644 }
      else none
    umask := 0o022
    fds := fun _ => none
    stdout := ""
    calls := [] }

/-- A kernel that grants descriptor 3, takes every byte and reports success. -/
def sampleKernel : Kernel :=
  { openGrant := some 3, writeAccept := some 12, fsyncRet := 0, closeRet := 0 }

end Io2

namespace Cpu2

/-! ## Properties of `cpu2.c` -/

theorem intercalate_go_eq (sep : String) (l : List String) (acc : String) :
    String.intercalate.go acc sep l = acc ++ sepCat sep l := by
  induction l generalizing acc with
  | nil => simp [String.intercalate.go, sepCat]
  | cons a as ih => simp [String.intercalate.go, sepCat, ih, String.append_assoc]

theorem intercalate_cons (sep a : String) (as : List String) :
    sep.intercalate (a :: as) = a ++ sepCat sep as := by
  simp [String.intercalate, intercalate_go_eq]

theorem stdoutText_append (xs ys : List Event) :
    stdoutText (xs ++ ys) = stdoutText xs ++ stdoutText ys := by
  induction xs with
  | nil => simp [stdoutText]
  | cons e es ih => cases e <;> simp [stdoutText, ih, String.append_assoc]

theorem forLoop_eq (rest pre : List String) (tr : List Event) :
    forLoop (pre ++ rest).length (pre ++ rest) pre.length tr
      = tr ++ (chunks rest).map Event.stdout := by
  induction rest generalizing pre tr with
  | nil =>
    rw [forLoop]
    simp [chunks]
  | cons t r ih =>
    rw [forLoop]
    have hlt : pre.length < (pre ++ t :: r).length := by simp
    have hat : argvAt (pre ++ t :: r) pre.length = t := by
      unfold argvAt
      rw [List.getD_eq_getElem?_getD, List.getElem?_append_right (le_refl _)]
      simp
    have ih2 := ih (pre ++ [t])
    simp only [List.append_assoc, List.singleton_append, List.length_append,
      List.length_singleton] at ih2
    simp only [hlt, if_true, hat]
    cases r with
    | nil =>
      have hc : ¬ ((pre.length : Int) < ((pre ++ [t]).length : Int) - 1) := by
        simp
      rw [if_neg hc]
      have := ih2 (tr ++ [Event.stdout t] ++ [Event.stdout "\n"])
      simp only [List.length_append, List.length_singleton] at this ⊢
      rw [this]
      simp [chunks]
    | cons t2 r2 =>
      have hc : ((pre.length : Int) < ((pre ++ t :: t2 :: r2).length : Int) - 1) := by
        simp; omega
      rw [if_pos hc]
      have := ih2 (tr ++ [Event.stdout t] ++ [Event.stdout " "])
      simp only [List.length_append, List.length_cons] at this ⊢
      rw [this]
      simp [chunks]

theorem stdoutText_chunks (a : String) (as : List String) :
    stdoutText ((chunks (a :: as)).map Event.stdout) = a ++ sepCat " " as ++ "\n" := by
  induction as generalizing a with
  | nil => simp [chunks, stdoutText, sepCat]
  | cons b bs ih =>
    have := ih b
    simp [chunks, stdoutText, sepCat, String.append_assoc] at this ⊢
    rw [this]

theorem onePass_eq (prog : String) (tokens : List String) :
    onePass (prog :: tokens) = (chunks tokens).map Event.stdout := by
  have h := forLoop_eq tokens [prog] []
  simpa [onePass] using h

theorem forLoop_append (argv : List String) (tr : List Event) :
    forLoop argv.length argv 1 tr = tr ++ onePass argv := by
  cases argv with
  | nil =>
    have h0 : ∀ t : List Event, forLoop 0 [] 1 t = t := by
      intro t; rw [forLoop]; simp
    simp [onePass, h0]
  | cons prog tokens =>
    have h := forLoop_eq tokens [prog] tr
    rw [onePass_eq]
    simpa using h

theorem spinCalls_map_stdout (l : List String) :
    spinCalls (l.map Event.stdout) = [] := by
  induction l with
  | nil => rfl
  | cons a as ih => simpa [spinCalls] using ih

theorem main_loop (argv : List String) (h : 2 ≤ argv.length) (k : Nat) :
    main argv k =
      { trace := (List.replicate k (onePass argv ++ [Event.spin 1])).flatten,
        pc := Pc.loopHead } := by
  induction k with
  | zero =>
    have : ¬ argv.length < 2 := by omega
    simp [main, start, this]
  | succ n ih =>
    simp [main, ih, step, whileStep, loopBody, Spin, forLoop_append,
      List.replicate_succ']

/-- C2. For every argument vector with at least one user token, one pass of
the inner `for` loop issues exactly the `printf` calls for the tokens
`argv[1..N]` in order with one `" "` between consecutive tokens and one
`"\n"` at the end, so the text printed is the tokens joined by single spaces
followed by a single newline; with a single token it is that token followed by
a newline. -/
theorem forLoop_prints_joined_line (prog : String) (tokens : List String)
    (hN : 1 ≤ tokens.length) :
    forLoop (tokens.length + 1) (prog :: tokens) 1 []
        = (tokens.intersperse " " ++ ["\n"]).map Event.stdout
      ∧ stdoutText (forLoop (tokens.length + 1) (prog :: tokens) 1 [])
        = " ".intercalate tokens ++ "\n"
      ∧ (∀ t, tokens = [t] →
          stdoutText (forLoop (tokens.length + 1) (prog :: tokens) 1 []) = t ++ "\n") := by
  have hne : tokens ≠ [] := by
    intro h; simp [h] at hN
  have h1 : forLoop (tokens.length + 1) (prog :: tokens) 1 []
      = (chunks tokens).map Event.stdout := by
    have := onePass_eq prog tokens
    simpa [onePass] using this
  obtain ⟨a, as, rfl⟩ := List.exists_cons_of_ne_nil hne
  refine ⟨?_, ?_, ?_⟩
  · rw [h1]; simp [chunks]
  · rw [h1, stdoutText_chunks, intercalate_cons]
  · intro t ht
    rw [h1, stdoutText_chunks]
    simp only [List.cons.injEq] at ht
    obtain ⟨rfl, rfl⟩ := ht
    simp [sepCat]

theorem forLoop_prints_joined_line_witness :
    1 ≤ ["a", "b"].length ∧
      stdoutText (forLoop 3 ["cpu", "a", "b"] 1 []) = "a b\n" :=
  ⟨by decide, (forLoop_prints_joined_line "cpu" ["a", "b"] (by decide)).2.1⟩

theorem main_usage (argv : List String) (h : argv.length < 2) (k : Nat) :
    main argv k =
      { trace := [Event.stderr "usage: cpu <string>\n"], pc := Pc.exited 1 } := by
  induction k with
  | zero => simp [main, start, h]
  | succ n ih => simp [main, ih, step]

/-- C3. With fewer than two entries in the argument vector (no user token)
the program writes exactly the usage line to standard error, writes nothing to
standard output, makes no `Spin` call and has terminated with exit status 1,
however long it is observed; and a terminated state, of whatever status, is
reached only when `argc < 2`. -/
theorem usage_exit (argv : List String) :
    (argv.length < 2 → ∀ k,
        (main argv k).pc = Pc.exited 1
        ∧ (main argv k).trace = [Event.stderr "usage: cpu <string>\n"]
        ∧ stderrText (main argv k).trace = "usage: cpu <string>\n"
        ∧ stdoutText (main argv k).trace = ""
        ∧ spinCalls (main argv k).trace = [])
    ∧ (∀ k status, (main argv k).pc = Pc.exited status → argv.length < 2) := by
  constructor
  · intro h k
    rw [main_usage argv h k]
    simp [stderrText, stdoutText, spinCalls]
  · intro k status hpc
    by_contra hge
    rw [main_loop argv (by omega) k] at hpc
    simp at hpc

theorem usage_exit_witness :
    (main ["cpu"] 7).pc = Pc.exited 1
      ∧ (main ["cpu"] 7).trace = [Event.stderr "usage: cpu <string>\n"] :=
  have h := (usage_exit ["cpu"]).1 (by decide) 7
  ⟨h.1, h.2.1⟩

theorem spinCalls_append (xs ys : List Event) :
    spinCalls (xs ++ ys) = spinCalls xs ++ spinCalls ys := by
  induction xs with
  | nil => simp [spinCalls]
  | cons e es ih => cases e <;> simp [spinCalls, ih]

theorem spinCalls_rounds (l : List String) (k : Nat) :
    spinCalls (List.replicate k (l.map Event.stdout ++ [Event.spin 1])).flatten
      = List.replicate k 1 := by
  induction k with
  | zero => simp [spinCalls]
  | succ n ih =>
    simp [List.replicate_succ, spinCalls_append, spinCalls_map_stdout, ih, spinCalls]

/-- C8. With at least one user token, after `k` iterations of the outer loop
the event trace is exactly `k` repetitions of the `printf` calls of one line
followed by one `Spin(1)`: every round prints the same line, the tokens joined
by single spaces and a newline, the `Spin` calls are exactly `k` calls with
argument 1, one after each line, and control is at the loop head again. No
state reached is a terminated one, so `return 0` is never executed. -/
theorem loop_trace (prog : String) (tokens : List String) (hN : 1 ≤ tokens.length)
    (k : Nat) :
    (main (prog :: tokens) k).trace
        = (List.replicate k
            ((tokens.intersperse " " ++ ["\n"]).map Event.stdout ++ [Event.spin 1])).flatten
      ∧ stdoutText ((tokens.intersperse " " ++ ["\n"]).map Event.stdout)
        = " ".intercalate tokens ++ "\n"
      ∧ spinCalls (main (prog :: tokens) k).trace = List.replicate k 1
      ∧ (main (prog :: tokens) k).pc = Pc.loopHead
      ∧ ∀ status, (main (prog :: tokens) k).pc ≠ Pc.exited status := by
  have hne : tokens ≠ [] := by
    intro h; simp [h] at hN
  have hlen : 2 ≤ (prog :: tokens).length := by simp; omega
  have hch : chunks tokens = tokens.intersperse " " ++ ["\n"] := by simp [chunks, hne]
  rw [main_loop _ hlen k, onePass_eq, hch]
  refine ⟨rfl, ?_, spinCalls_rounds _ k, rfl, ?_⟩
  · obtain ⟨a, as, rfl⟩ := List.exists_cons_of_ne_nil hne
    rw [← hch, stdoutText_chunks, intercalate_cons]
  · intro status; simp

theorem loop_trace_witness :
    1 ≤ ["a", "b"].length ∧
      (main ["cpu", "a", "b"] 2).trace =
        [Event.stdout "a", Event.stdout " ", Event.stdout "b", Event.stdout "\n",
          Event.spin 1,
         Event.stdout "a", Event.stdout " ", Event.stdout "b", Event.stdout "\n",
          Event.spin 1]
      ∧ (main ["cpu", "a", "b"] 2).pc = Pc.loopHead :=
  have h := loop_trace "cpu" ["a", "b"] (by decide) 2
  ⟨by decide, h.1, h.2.2.2.1⟩

end Cpu2

namespace Io2

/-! ## Properties of `io2.c` -/

@[simp] theorem update_same {α β : Type} [DecidableEq α] (f : α → β) (a : α) (b : β) :
    update f a b a = b := by
  simp [update]

@[simp] theorem update_update {α β : Type} [DecidableEq α] (f : α → β) (a : α) (b c : β) :
    update (update f a b) a c = update f a c := by
  funext x
  by_cases h : x = a <;> simp [update, h]

theorem sysOpen_refused (w : World) (path : String) (flags mode : Nat) :
    sysOpen w path flags mode none
      = (-1, { w with calls := w.calls ++ [Syscall.open path flags mode (-1)] }) := by
  simp [sysOpen]

theorem sysOpen_granted (w : World) (path : String) (fd : Nat) :
    sysOpen w path (O_WRONLY ||| O_CREAT ||| O_TRUNC) (S_IRUSR ||| S_IWUSR) (some fd)
      = ((fd : Int), openedWorld w path fd) := by
  have hc : (O_WRONLY ||| O_CREAT ||| O_TRUNC) &&& O_CREAT ≠ 0 := by decide
  have he : (O_WRONLY ||| O_CREAT ||| O_TRUNC) &&& O_EXCL = 0 := by decide
  have ht : (O_WRONLY ||| O_CREAT ||| O_TRUNC) &&& O_TRUNC ≠ 0 := by decide
  have ha : (O_WRONLY ||| O_CREAT ||| O_TRUNC) &&& O_ACCMODE = O_WRONLY := by decide
  have hp : (O_WRONLY ||| O_CREAT ||| O_TRUNC) &&& O_APPEND = 0 := by decide
  have hm : (S_IRUSR ||| S_IWUSR) &&& 0o7777 = S_IRUSR ||| S_IWUSR := by decide
  unfold sysOpen openedWorld openedFile
  cases hfs : w.fs path <;> simp [hc, he, ht, ha, hp, hm]

theorem openedFile_data (w : World) (path : String) : (openedFile w path).data = [] := by
  unfold openedFile
  cases w.fs path <;> rfl

theorem sysWrite_failed (w : World) (path : String) (fd : Nat) (buf : List Char)
    (count : Nat) :
    sysWrite (openedWorld w path fd) (fd : Int) buf count none
      = (-1, { openedWorld w path fd with
                calls := (openedWorld w path fd).calls
                  ++ [Syscall.write (fd : Int) buf count (-1)] }) := by
  simp [sysWrite, openedWorld]

theorem sysWrite_taken (w : World) (path : String) (fd : Nat) (buf : List Char)
    (count k : Nat) :
    sysWrite (openedWorld w path fd) (fd : Int) buf count (some k)
      = (((min k count : Nat) : Int), writtenWorld w path fd buf count (min k count)) := by
  simp [sysWrite, openedWorld, writtenWorld, writeAt, openedFile_data]

theorem main_refused (argv : List String) (k : Kernel) (w : World)
    (hargc : 2 ≤ argv.length) (ho : k.openGrant = none) :
    main argv k w =
      { outcome := Outcome.abort, fd := some (-1), rc := none,
        world := { w with calls := w.calls ++
          [Syscall.open (argv.getD 1 "") (O_WRONLY ||| O_CREAT ||| O_TRUNC)
            (S_IRUSR ||| S_IWUSR) (-1)] } } := by
  have h : ¬ argv.length < 2 := by omega
  simp [main, h, ho, sysOpen_refused]

theorem main_write_failed (argv : List String) (k : Kernel) (w : World)
    (hargc : 2 ≤ argv.length) (fd : Nat) (ho : k.openGrant = some fd)
    (hw : k.writeAccept = none) :
    main argv k w =
      { outcome := Outcome.abort, fd := some (fd : Int), rc := some (-1),
        world := { openedWorld w (argv.getD 1 "") fd with
          calls := (openedWorld w (argv.getD 1 "") fd).calls
            ++ [Syscall.write (fd : Int) "hello world\n".data 12 (-1)] } } := by
  have h : ¬ argv.length < 2 := by omega
  simp [main, h, ho, hw, sysOpen_granted, sysWrite_failed, sprintf, strlen]

theorem main_write_short (argv : List String) (k : Kernel) (w : World)
    (hargc : 2 ≤ argv.length) (fd : Nat) (ho : k.openGrant = some fd)
    (n : Nat) (hw : k.writeAccept = some n) (hn : n < 12) :
    main argv k w =
      { outcome := Outcome.abort, fd := some (fd : Int), rc := some (n : Int),
        world := writtenWorld w (argv.getD 1 "") fd "hello world\n".data 12 n } := by
  have h : ¬ argv.length < 2 := by omega
  have hmin : min n 12 = n := by omega
  have hne : ¬ ((n : Int) = 12) := by omega
  simp [main, h, ho, hw, sysOpen_granted, sysWrite_taken, sprintf, strlen, hmin, hne]

theorem main_write_full (argv : List String) (k : Kernel) (w : World)
    (hargc : 2 ≤ argv.length) (fd : Nat) (ho : k.openGrant = some fd)
    (n : Nat) (hw : k.writeAccept = some n) (hn : 12 ≤ n) :
    main argv k w =
      { outcome := Outcome.exit 0, fd := some (fd : Int), rc := some 12,
        world := finalWorld w (argv.getD 1 "") fd k } := by
  have h : ¬ argv.length < 2 := by omega
  have hmin : min n 12 = 12 := by omega
  simp [main, h, ho, hw, sysOpen_granted, sysWrite_taken, sprintf, strlen, hmin,
    sysFsync, sysClose, writtenWorld, finalWorld]

theorem main_cases (argv : List String) (k : Kernel) (w : World)
    (hargc : 2 ≤ argv.length) :
    main argv k w =
        { outcome := Outcome.abort, fd := some (-1), rc := none,
          world := { w with calls := w.calls ++
            [Syscall.open (argv.getD 1 "") (O_WRONLY ||| O_CREAT ||| O_TRUNC)
              (S_IRUSR ||| S_IWUSR) (-1)] } }
      ∨ (∃ fd : Nat, main argv k w =
          { outcome := Outcome.abort, fd := some (fd : Int), rc := some (-1),
            world := { openedWorld w (argv.getD 1 "") fd with
              calls := (openedWorld w (argv.getD 1 "") fd).calls
                ++ [Syscall.write (fd : Int) "hello world\n".data 12 (-1)] } })
      ∨ (∃ fd n : Nat, n < 12 ∧ main argv k w =
          { outcome := Outcome.abort, fd := some (fd : Int), rc := some (n : Int),
            world := writtenWorld w (argv.getD 1 "") fd "hello world\n".data 12 n })
      ∨ (∃ fd : Nat, main argv k w =
          { outcome := Outcome.exit 0, fd := some (fd : Int), rc := some 12,
            world := finalWorld w (argv.getD 1 "") fd k }) := by
  cases ho : k.openGrant with
  | none => exact Or.inl (main_refused argv k w hargc ho)
  | some fd =>
    cases hw : k.writeAccept with
    | none => exact Or.inr (Or.inl ⟨fd, main_write_failed argv k w hargc fd ho hw⟩)
    | some n =>
      by_cases hn : n < 12
      · exact Or.inr (Or.inr (Or.inl ⟨fd, n, hn, main_write_short argv k w hargc fd ho n hw hn⟩))
      · exact Or.inr (Or.inr (Or.inr
          ⟨fd, main_write_full argv k w hargc fd ho n hw (by omega)⟩))

theorem main_exit_zero (argv : List String) (k : Kernel) (w : World)
    (hexit : (main argv k w).outcome = Outcome.exit 0) :
    2 ≤ argv.length ∧ ∃ fd : Nat, main argv k w =
      { outcome := Outcome.exit 0, fd := some (fd : Int), rc := some 12,
        world := finalWorld w (argv.getD 1 "") fd k } := by
  have hargc : 2 ≤ argv.length := by
    by_contra hlt
    have hlt2 : argv.length < 2 := by omega
    unfold main at hexit
    rw [if_pos hlt2] at hexit
    cases h0 : argv[0]? <;> simp [h0] at hexit
  refine ⟨hargc, ?_⟩
  rcases main_cases argv k w hargc with h | ⟨fd, h⟩ | ⟨fd, n, _, h⟩ | ⟨fd, h⟩
  · rw [h] at hexit; simp at hexit
  · rw [h] at hexit; simp at hexit
  · rw [h] at hexit; simp at hexit
  · exact ⟨fd, h⟩

/-- C1. Whenever the program is started with at least one argument, `open` of
`argv[1]` returns a non-negative descriptor and `write` returns 12, the file
at `argv[1]` afterwards holds exactly the 12 bytes `"hello world\n"`, whatever
was at that path before (nothing, an empty file, or data of any length). -/
theorem written_file_content (argv : List String) (k : Kernel) (w : World)
    (hargc : 2 ≤ argv.length) (fd : Int) (hfd : (main argv k w).fd = some fd)
    (hopen : 0 ≤ fd) (hrc : (main argv k w).rc = some 12) :
    ((main argv k w).world.fs (argv.getD 1 "")).map File.data
        = some "hello world\n".data
      ∧ "hello world\n".data.length = 12 := by
  refine ⟨?_, by decide⟩
  rcases main_cases argv k w hargc with h | ⟨fd, h⟩ | ⟨fd, n, hn, h⟩ | ⟨fd, h⟩
  · rw [h] at hfd; simp at hfd; omega
  · rw [h] at hrc; simp at hrc
  · rw [h] at hrc; simp at hrc; omega
  · rw [h]; simp [finalWorld]

theorem written_file_content_witness :
    2 ≤ ["io2", "notes.txt"].length
      ∧ (sampleWorld.fs "notes.txt").map File.data
          = some "old data, longer than the greeting".data
      ∧ ((main ["io2", "notes.txt"] sampleKernel sampleWorld).world.fs "notes.txt").map
          File.data = some "hello world\n".data :=
  ⟨by decide, by decide,
    (written_file_content ["io2", "notes.txt"] sampleKernel sampleWorld (by decide) 3
      (by decide) (by decide) (by decide)).1⟩

/-- C4. Started with the program name alone (`argc < 2`, `argv[0]` present),
the program appends exactly `argv[0]` followed by `" [filename]\n"` to
standard output and exits with status 1; it makes no `open`, `write`, `fsync`
or `close` call, and the file system and the descriptor table are as
before. -/
theorem usage_without_file_operation (argv : List String) (k : Kernel) (w : World)
    (hargc : argv.length < 2) (prog : String) (h0 : argv[0]? = some prog) :
    (main argv k w).outcome = Outcome.exit 1
      ∧ (main argv k w).world.stdout = w.stdout ++ (prog ++ " [filename]\n")
      ∧ (main argv k w).world.calls = w.calls
      ∧ (main argv k w).world.fs = w.fs
      ∧ (main argv k w).world.fds = w.fds := by
  simp [main, hargc, h0]

theorem usage_without_file_operation_witness :
    ["./io2"].length < 2
      ∧ (main ["./io2"] sampleKernel sampleWorld).outcome = Outcome.exit 1
      ∧ (main ["./io2"] sampleKernel sampleWorld).world.stdout = "./io2 [filename]\n"
      ∧ (main ["./io2"] sampleKernel sampleWorld).world.calls = [] :=
  have h := usage_without_file_operation ["./io2"] sampleKernel sampleWorld (by decide)
    "./io2" (by decide)
  ⟨by decide, h.1, h.2.1, h.2.2.1⟩

/-- C5. For every run with `argc ≥ 2`, `fd` is the value `open` returned,
which is −1 exactly when the kernel refuses the request and the granted
descriptor otherwise. The process is aborted by a failed assertion exactly
when `open` returned a negative value or `write` returned a value other than
12, that is, exactly when the kernel refuses the `open`, fails the `write`, or
takes fewer than 12 bytes; otherwise it exits with status 0. When `open`
fails the only call made is that `open`, `write` is never attempted and no
file changes. When `open` succeeds, `rc` is the value `write` returned, which
is −1 on failure and otherwise the number of bytes taken, at most 12; if it
is not 12 the calls made are exactly that `open` and that one `write`, with no
`fsync`, no `close` and no second `write`; if it is 12 the run exits with
status 0 after exactly `open`, `write`, `fsync`, `close`. -/
theorem abort_iff_io_failure (argv : List String) (k : Kernel) (w : World)
    (hargc : 2 ≤ argv.length) :
    (main argv k w).fd = some (openCall argv k w).1
      ∧ ((openCall argv k w).1 < 0 ↔ k.openGrant = none)
      ∧ (∀ d : Nat, k.openGrant = some d → (openCall argv k w).1 = (d : Int))
      ∧ ((main argv k w).outcome = Outcome.abort ↔
          ((openCall argv k w).1 < 0
            ∨ (0 ≤ (openCall argv k w).1 ∧ (writeCall argv k w).1 ≠ 12)))
      ∧ ((main argv k w).outcome = Outcome.abort ↔
          (k.openGrant = none ∨ k.writeAccept = none
            ∨ ∃ n : Nat, k.writeAccept = some n ∧ n < 12))
      ∧ ((main argv k w).outcome ≠ Outcome.abort →
          (main argv k w).outcome = Outcome.exit 0)
      ∧ ((openCall argv k w).1 < 0 →
          (openCall argv k w).1 = -1
          ∧ (main argv k w).rc = none
          ∧ (main argv k w).world.calls = w.calls ++
              [Syscall.open (argv.getD 1 "") (O_WRONLY ||| O_CREAT ||| O_TRUNC)
                (S_IRUSR ||| S_IWUSR) (-1)]
          ∧ (main argv k w).world.fs = w.fs)
      ∧ (0 ≤ (openCall argv k w).1 →
          (main argv k w).rc = some (writeCall argv k w).1
          ∧ -1 ≤ (writeCall argv k w).1 ∧ (writeCall argv k w).1 ≤ 12
          ∧ ((writeCall argv k w).1 = -1 ↔ k.writeAccept = none)
          ∧ (∀ n : Nat, k.writeAccept = some n →
              (writeCall argv k w).1 = ((min n 12 : Nat) : Int))
          ∧ ((writeCall argv k w).1 ≠ 12 →
              (main argv k w).world.calls = w.calls ++
                [Syscall.open (argv.getD 1 "") (O_WRONLY ||| O_CREAT ||| O_TRUNC)
                  (S_IRUSR ||| S_IWUSR) (openCall argv k w).1,
                 Syscall.write (openCall argv k w).1 "hello world\n".data 12
                  (writeCall argv k w).1])
          ∧ ((writeCall argv k w).1 = 12 →
              (main argv k w).outcome = Outcome.exit 0
              ∧ (main argv k w).world.calls = w.calls ++
                [Syscall.open (argv.getD 1 "") (O_WRONLY ||| O_CREAT ||| O_TRUNC)
                  (S_IRUSR ||| S_IWUSR) (openCall argv k w).1,
                 Syscall.write (openCall argv k w).1 "hello world\n".data 12 12,
                 Syscall.fsync (openCall argv k w).1 k.fsyncRet,
                 Syscall.close (openCall argv k w).1 k.closeRet])) := by
  cases ho : k.openGrant with
  | none =>
    have hoc : openCall argv k w = (-1, { w with calls := w.calls ++
        [Syscall.open (argv.getD 1 "") (O_WRONLY ||| O_CREAT ||| O_TRUNC)
          (S_IRUSR ||| S_IWUSR) (-1)] }) := by
      unfold openCall; rw [ho, sysOpen_refused]
    rw [main_refused argv k w hargc ho, hoc]
    simp
  | some d =>
    have hoc : openCall argv k w = ((d : Int), openedWorld w (argv.getD 1 "") d) := by
      unfold openCall; rw [ho, sysOpen_granted]
    cases hw : k.writeAccept with
    | none =>
      have hwc : (writeCall argv k w).1 = -1 := by
        unfold writeCall; rw [hoc, hw]; simp only [sysWrite_failed]
      rw [main_write_failed argv k w hargc d ho hw, hwc, hoc]
      simp [openedWorld]
    | some n =>
      have hwc : (writeCall argv k w).1 = ((min n 12 : Nat) : Int) := by
        unfold writeCall; rw [hoc, hw]; simp only [sysWrite_taken, sprintf, strlen]
        rfl
      by_cases hn : n < 12
      · have hmin : min n 12 = n := by omega
        rw [main_write_short argv k w hargc d ho n hw hn, hwc, hoc, hmin]
        simp [writtenWorld]
        omega
      · have hmin : min n 12 = 12 := by omega
        rw [main_write_full argv k w hargc d ho n hw (by omega), hwc, hoc, hmin]
        simp [finalWorld]
        omega

theorem abort_iff_io_failure_witness :
    2 ≤ ["io2", "notes.txt"].length
      ∧ (main ["io2", "notes.txt"] { sampleKernel with writeAccept := some 5 }
          sampleWorld).outcome = Outcome.abort
      ∧ (main ["io2", "notes.txt"] { sampleKernel with writeAccept := some 5 }
          sampleWorld).fd = some 3
      ∧ (main ["io2", "notes.txt"] { sampleKernel with writeAccept := some 5 }
          sampleWorld).rc = some 5
      ∧ (main ["io2", "notes.txt"] { sampleKernel with writeAccept := some 5 }
          sampleWorld).world.calls =
          [Syscall.open "notes.txt" 0o1101 0o600 3,
           Syscall.write 3 "hello world\n".data 12 5] :=
  have h := abort_iff_io_failure ["io2", "notes.txt"]
    { sampleKernel with writeAccept := some 5 } sampleWorld (by decide)
  ⟨by decide, h.2.2.2.2.1.2 (Or.inr (Or.inr ⟨5, rfl, by decide⟩)), h.1,
    (h.2.2.2.2.2.2.2 (by decide)).1,
    (h.2.2.2.2.2.2.2 (by decide)).2.2.2.2.2.1 (by decide)⟩

theorem clearBits_and_self (m mask : Nat) : clearBits m mask &&& m = clearBits m mask := by
  apply Nat.eq_of_testBit_eq
  intro i
  simp only [clearBits, Nat.testBit_and, Nat.testBit_xor]
  cases m.testBit i <;> cases mask.testBit i <;> rfl

theorem clearBits_of_disjoint (m mask : Nat) (h : mask &&& m = 0) : clearBits m mask = m := by
  simp [clearBits, Nat.and_comm m mask, h]

/-- C6 (as stated, refuted). A file that exists with permission bits 0644 is
opened, written and closed by a run that exits with status 0, and afterwards
its permission bits are still 0644, not 0600. -/
theorem owner_only_bits_counterexample :
    (sampleWorld.fs "notes.txt").map File.mode = some 0o644
      ∧ (main ["io2", "notes.txt"] sampleKernel sampleWorld).outcome = Outcome.exit 0
      ∧ ((main ["io2", "notes.txt"] sampleKernel sampleWorld).world.fs "notes.txt").map
          File.mode = some 0o644
      ∧ ((main ["io2", "notes.txt"] sampleKernel sampleWorld).world.fs "notes.txt").map
          File.mode ≠ some 0o600 := by
  decide

/-- C6 (amended). After a run that exits with status 0: a file that already
existed at `argv[1]` keeps the permission bits it had; a file the run created
has the bits `S_IRUSR | S_IWUSR` less those set in the creation mask of the
process, so it never has a group, other or execute bit, and it has exactly
mode 0600 when the mask contains neither owner bit. -/
theorem permission_bits_after_run (argv : List String) (k : Kernel) (w : World)
    (hexit : (main argv k w).outcome = Outcome.exit 0) :
    (∀ f, w.fs (argv.getD 1 "") = some f →
        ((main argv k w).world.fs (argv.getD 1 "")).map File.mode = some f.mode)
      ∧ (w.fs (argv.getD 1 "") = none →
          ((main argv k w).world.fs (argv.getD 1 "")).map File.mode
              = some (clearBits (S_IRUSR ||| S_IWUSR) w.umask)
            ∧ clearBits (S_IRUSR ||| S_IWUSR) w.umask &&& 0o600
              = clearBits (S_IRUSR ||| S_IWUSR) w.umask
            ∧ (w.umask &&& 0o600 = 0 →
                ((main argv k w).world.fs (argv.getD 1 "")).map File.mode = some 0o600)) := by
  obtain ⟨_, fd, h⟩ := main_exit_zero argv k w hexit
  rw [h]
  have hm : S_IRUSR ||| S_IWUSR = 0o600 := by decide
  generalize argv.getD 1 "" = path
  refine ⟨?_, ?_⟩
  · intro f hf
    simp [finalWorld, openedFile, hf]
  · intro hnone
    refine ⟨by simp [finalWorld, openedFile, hnone], ?_, ?_⟩
    · rw [hm]; exact clearBits_and_self _ _
    · intro hmask
      simp [finalWorld, openedFile, hnone, hm, clearBits_of_disjoint _ _ hmask]

theorem permission_bits_after_run_witness :
    (main ["io2", "new.txt"] sampleKernel sampleWorld).outcome = Outcome.exit 0
      ∧ sampleWorld.fs "new.txt" = none
      ∧ sampleWorld.umask &&& 0o600 = 0
      ∧ ((main ["io2", "new.txt"] sampleKernel sampleWorld).world.fs "new.txt").map
          File.mode = some 0o600 :=
  ⟨by decide, by decide, by decide,
    ((permission_bits_after_run ["io2", "new.txt"] sampleKernel sampleWorld
      (by decide)).2 (by decide)).2.2 (by decide)⟩

/-- C7. If a run on a path exits with status 0 and a second run of the
program with the same arguments, started on the file system the first one
left, also exits with status 0, then the second run leaves the file system as
the first did: the file at `argv[1]` has the same content and the same
permission bits after two runs as after one. -/
theorem rerun_leaves_same_file (argv : List String) (k₁ k₂ : Kernel) (w w₂ : World)
    (h₁ : (main argv k₁ w).outcome = Outcome.exit 0)
    (hfs : w₂.fs = (main argv k₁ w).world.fs)
    (h₂ : (main argv k₂ w₂).outcome = Outcome.exit 0) :
    (main argv k₂ w₂).world.fs = (main argv k₁ w).world.fs
      ∧ ((main argv k₂ w₂).world.fs (argv.getD 1 "")).map File.data
          = ((main argv k₁ w).world.fs (argv.getD 1 "")).map File.data
      ∧ ((main argv k₂ w₂).world.fs (argv.getD 1 "")).map File.mode
          = ((main argv k₁ w).world.fs (argv.getD 1 "")).map File.mode := by
  obtain ⟨_, fd₁, e₁⟩ := main_exit_zero argv k₁ w h₁
  obtain ⟨_, fd₂, e₂⟩ := main_exit_zero argv k₂ w₂ h₂
  have hall : (main argv k₂ w₂).world.fs = (main argv k₁ w).world.fs := by
    rw [e₁] at hfs
    rw [e₂, e₁]
    simp [finalWorld, openedFile, hfs]
  exact ⟨hall, by rw [hall], by rw [hall]⟩

theorem rerun_leaves_same_file_witness :
    (main ["io2", "notes.txt"] sampleKernel sampleWorld).outcome = Outcome.exit 0
      ∧ (main ["io2", "notes.txt"] sampleKernel
          (main ["io2", "notes.txt"] sampleKernel sampleWorld).world).outcome
          = Outcome.exit 0
      ∧ (main ["io2", "notes.txt"] sampleKernel
          (main ["io2", "notes.txt"] sampleKernel sampleWorld).world).world.fs "notes.txt"
          = (main ["io2", "notes.txt"] sampleKernel sampleWorld).world.fs "notes.txt" :=
  ⟨by decide, by decide,
    congrFun (rerun_leaves_same_file ["io2", "notes.txt"] sampleKernel sampleKernel
      sampleWorld (main ["io2", "notes.txt"] sampleKernel sampleWorld).world
      (by decide) rfl (by decide)).1 "notes.txt"⟩

/-- C9. On every run that exits with status 0 the calls made are exactly
`open(argv[1], O_WRONLY | O_CREAT | O_TRUNC, S_IRUSR | S_IWUSR)`, one `write`
of the 12 bytes `"hello world\n"`, one `fsync` and one `close`, in that order,
the last three on the descriptor `open` returned; that descriptor is
non-negative and is no longer open when the program exits. -/
theorem call_sequence_on_success (argv : List String) (k : Kernel) (w : World)
    (hexit : (main argv k w).outcome = Outcome.exit 0) :
    ∃ fd : Int, 0 ≤ fd ∧ (main argv k w).fd = some fd
      ∧ (main argv k w).world.calls = w.calls ++
          [Syscall.open (argv.getD 1 "") (O_WRONLY ||| O_CREAT ||| O_TRUNC)
            (S_IRUSR ||| S_IWUSR) fd,
           Syscall.write fd "hello world\n".data 12 12,
           Syscall.fsync fd k.fsyncRet,
           Syscall.close fd k.closeRet]
      ∧ (main argv k w).world.fds fd = none := by
  obtain ⟨_, fd, h⟩ := main_exit_zero argv k w hexit
  refine ⟨fd, by omega, ?_⟩
  rw [h]
  simp [finalWorld]

theorem call_sequence_on_success_witness :
    (main ["io2", "notes.txt"] sampleKernel sampleWorld).outcome = Outcome.exit 0 ∧
    ∃ fd : Int, 0 ≤ fd
      ∧ (main ["io2", "notes.txt"] sampleKernel sampleWorld).fd = some fd
      ∧ (main ["io2", "notes.txt"] sampleKernel sampleWorld).world.calls =
          [Syscall.open "notes.txt" 0o1101 0o600 fd,
           Syscall.write fd "hello world\n".data 12 12,
           Syscall.fsync fd 0,
           Syscall.close fd 0] :=
  have ⟨fd, h⟩ := call_sequence_on_success ["io2", "notes.txt"] sampleKernel sampleWorld
    (by decide)
  ⟨by decide, fd, h.1, h.2.1, h.2.2.1⟩

/-- C10. When `open` succeeds and `write` returns 12, the program exits with
status 0 whatever `fsync` and `close` return: replacing the two reports of the
kernel by any values `rf` and `rl` (failure included) gives a run that still
exits with status 0, leaves the same files, and whose record shows `fsync`
returning `rf` and `close` returning `rl`. -/
theorem exit_ignores_fsync_and_close (argv : List String) (k : Kernel) (w : World)
    (hargc : 2 ≤ argv.length) (fd : Int) (hfd : (main argv k w).fd = some fd)
    (hopen : 0 ≤ fd) (hrc : (main argv k w).rc = some 12) (rf rl : Int) :
    (main argv { k with fsyncRet := rf, closeRet := rl } w).outcome = Outcome.exit 0
      ∧ (main argv { k with fsyncRet := rf, closeRet := rl } w).world.calls = w.calls ++
          [Syscall.open (argv.getD 1 "") (O_WRONLY ||| O_CREAT ||| O_TRUNC)
            (S_IRUSR ||| S_IWUSR) fd,
           Syscall.write fd "hello world\n".data 12 12,
           Syscall.fsync fd rf,
           Syscall.close fd rl]
      ∧ (main argv { k with fsyncRet := rf, closeRet := rl } w).world.fs
          = (main argv k w).world.fs := by
  have hko : ({ k with fsyncRet := rf, closeRet := rl } : Kernel).openGrant = k.openGrant := rfl
  have hkw : ({ k with fsyncRet := rf, closeRet := rl } : Kernel).writeAccept = k.writeAccept :=
    rfl
  have hkf : ({ k with fsyncRet := rf, closeRet := rl } : Kernel).fsyncRet = rf := rfl
  have hkc : ({ k with fsyncRet := rf, closeRet := rl } : Kernel).closeRet = rl := rfl
  generalize ({ k with fsyncRet := rf, closeRet := rl } : Kernel) = k2 at hko hkw hkf hkc ⊢
  cases ho : k.openGrant with
  | none =>
    rw [main_refused argv k w hargc ho] at hfd
    simp at hfd; omega
  | some d =>
    cases hw : k.writeAccept with
    | none =>
      rw [main_write_failed argv k w hargc d ho hw] at hrc
      simp at hrc
    | some n =>
      by_cases hn : n < 12
      · rw [main_write_short argv k w hargc d ho n hw hn] at hrc
        simp at hrc; omega
      · have hn2 : 12 ≤ n := by omega
        rw [main_write_full argv k w hargc d ho n hw hn2] at hfd
        simp at hfd
        subst hfd
        rw [main_write_full argv k w hargc d ho n hw hn2,
          main_write_full argv k2 w hargc d (hko.trans ho) n (hkw.trans hw) hn2]
        simp [finalWorld, hkf, hkc]

theorem exit_ignores_fsync_and_close_witness :
    (main ["io2", "notes.txt"] { sampleKernel with fsyncRet := -1, closeRet := -1 }
        sampleWorld).outcome = Outcome.exit 0
      ∧ (main ["io2", "notes.txt"] { sampleKernel with fsyncRet := -1, closeRet := -1 }
          sampleWorld).world.calls =
          [Syscall.open "notes.txt" 0o1101 0o600 3,
           Syscall.write 3 "hello world\n".data 12 12,
           Syscall.fsync 3 (-1),
           Syscall.close 3 (-1)] :=
  have h := exit_ignores_fsync_and_close ["io2", "notes.txt"] sampleKernel sampleWorld
    (by decide) 3 (by decide) (by decide) (by decide) (-1) (-1)
  ⟨h.1, h.2.1⟩

end Io2
